import Mathlib

/-!
Shallow embedding of the resilient API client (key rotation + retry) and the
bounded LRU response cache of `src/ai_course_recommender.py`, together with
proofs settling the frozen claims about them.

Python exceptions are modelled by the inductive `PyErr`; fallible operations
return `Except PyErr _`.  Machine-irrelevant effects of the source
(`time.sleep`, `print`, the actual network transport) are dropped or
parameterised: the transport becomes an explicit function argument.
-/

/-- Universe of Python exception values relevant to this program.
`transportErr` stands for an arbitrary exception raised by the
`genai` transport during one attempt (identified by an opaque code);
`indexError`, `keyError`, `valueError` model the Python builtins raised by
list indexing, `del` on a missing dict key, and `raise ValueError(...)`;
`typeErrorRaiseNone` models `raise None` (a `TypeError` in Python, reachable
only when `max_retries = 0`).  `exhaustedRetries` is modelled from the spec:
it stands for the spec's `ExhaustedRetriesError` wrapper class, which does not
exist in the source; the constructor is present only so the spec's claim about
it can be stated and compared against what the code actually raises. -/
inductive PyErr where
  | transportErr : Nat → PyErr
  | indexError : PyErr
  | keyError : PyErr
  | valueError : String → PyErr
  | typeErrorRaiseNone : PyErr
  | exhaustedRetries : PyErr → PyErr
deriving DecidableEq

/-- State of `GeminiAPIClient` (`src/ai_course_recommender.py`, lines 80-95):
the ordered key list, the rotation index, `max_retries` (from config), and the
two cumulative counters.  `retry_delay` only feeds `time.sleep` and is not
modelled. -/
structure ClientState where
  apiKeys : List String
  currentKeyIndex : Nat
  maxRetries : Nat
  requestCount : Nat
  errorCount : Nat
deriving DecidableEq

/-- `GeminiAPIClient.__init__(api_keys)`: index starts at 0, counters at 0. -/
def mkClient (apiKeys : List String) (maxRetries : Nat) : ClientState :=
  { apiKeys := apiKeys, currentKeyIndex := 0, maxRetries := maxRetries,
    requestCount := 0, errorCount := 0 }

/-- `GeminiAPIClient._get_next_api_key` (lines 91-95):
`key = self.api_keys[self.current_key_index]` (an `IndexError` when the index
is out of range, e.g. for an empty key list), then
`self.current_key_index = (self.current_key_index + 1) % len(self.api_keys)`.
Returns the key together with the updated state. -/
def get_next_api_key (s : ClientState) : Except PyErr (String × ClientState) :=
  match s.apiKeys[s.currentKeyIndex]? with
  | none => Except.error PyErr.indexError
  | some key =>
      Except.ok (key,
        { s with currentKeyIndex := (s.currentKeyIndex + 1) % s.apiKeys.length })

deriving instance DecidableEq for Except

/-- Result of one `generate_content` call: the Python return value or raised
exception, the final client state, and (ghost instrumentation) the list of
rotation-index values current at the start of each loop iteration, in order. -/
structure GenResult where
  result : Except PyErr String
  state : ClientState
  trace : List Nat
deriving DecidableEq

/-- The `for attempt in range(self.max_retries)` loop of
`GeminiAPIClient.generate_content` (lines 106-126).  `fuel` is the number of
iterations left, `attempt` the Python loop variable.  Each iteration fetches
the next key (inside the `try`, so an `IndexError` there is caught too),
invokes the transport (modelled as a function of the attempt number and the
key), and on success returns the text; on failure increments `error_count`,
records the exception in `last_error` and continues.  When the loop ends,
`raise last_error` (a `TypeError` when `last_error` is still `None`). -/
def attemptLoop (transport : Nat → String → Except PyErr String) :
    Nat → Nat → ClientState → Option PyErr → GenResult
  | 0, _, s, lastError =>
      { result := Except.error (lastError.getD PyErr.typeErrorRaiseNone),
        state := s, trace := [] }
  | fuel + 1, attempt, s, _ =>
      match get_next_api_key s with
      | Except.error e =>
          let r := attemptLoop transport fuel (attempt + 1)
            { s with errorCount := s.errorCount + 1 } (some e)
          { r with trace := s.currentKeyIndex :: r.trace }
      | Except.ok (key, s1) =>
          match transport attempt key with
          | Except.ok text =>
              { result := Except.ok text, state := s1, trace := [s.currentKeyIndex] }
          | Except.error e =>
              let r := attemptLoop transport fuel (attempt + 1)
                { s1 with errorCount := s1.errorCount + 1 } (some e)
              { r with trace := s.currentKeyIndex :: r.trace }

/-- `GeminiAPIClient.generate_content` (lines 101-126): increments
`request_count` once, sets `last_error = None`, then runs the retry loop. -/
def generate_content (transport : Nat → String → Except PyErr String)
    (s : ClientState) : GenResult :=
  attemptLoop transport s.maxRetries 0 { s with requestCount := s.requestCount + 1 } none

/-- Runs a sequence of `generate_content` calls on one client, each call with
its own transport behaviour; results are discarded, state is threaded. -/
def runCalls : List (Nat → String → Except PyErr String) → ClientState → ClientState
  | [], s => s
  | t :: ts, s => runCalls ts (generate_content t s).state

/-- Repeated `_get_next_api_key` calls: the list of keys returned by `n`
consecutive calls (empty tail if a call raises, which cannot happen for a
non-empty pool). -/
def rotationTrace (s : ClientState) : Nat → List String
  | 0 => []
  | n + 1 =>
      match get_next_api_key s with
      | Except.ok (key, s1) => key :: rotationTrace s1 n
      | Except.error _ => []

/-- Python truthiness of `os.getenv` results: `None` and the empty string are
falsy, any other string is truthy. -/
def pyTruthy : Option String → Bool
  | none => false
  | some s => !(s == "")

/-- The message of the `ValueError` raised by `load_api_keys` (abbreviated). -/
def noKeysMsg : String := "No API keys found!"

/-- `load_api_keys` (lines 46-75): append `GEMINI_API_KEY_1` and
`GEMINI_API_KEY_2` when truthy; raise `ValueError` when the list is empty. -/
def load_api_keys (key1 key2 : Option String) : Except PyErr (List String) :=
  let apiKeys :=
    (if pyTruthy key1 then [key1.getD ""] else []) ++
    (if pyTruthy key2 then [key2.getD ""] else [])
  if apiKeys.isEmpty then Except.error (PyErr.valueError noKeysMsg)
  else Except.ok apiKeys

/-- The module-level construction path (lines 78 and 138):
`API_KEYS = load_api_keys()` followed by `GeminiAPIClient(API_KEYS)`. -/
def constructClient (key1 key2 : Option String) (maxRetries : Nat) :
    Except PyErr ClientState :=
  match load_api_keys key1 key2 with
  | Except.error e => Except.error e
  | Except.ok apiKeys => Except.ok (mkClient apiKeys maxRetries)

/-- Drop leading whitespace characters from a character list. -/
def dropLeadingWs : List Char → List Char
  | [] => []
  | c :: cs => if c.isWhitespace then dropLeadingWs cs else c :: cs

/-- Python `s.lower().strip()` on a string field: lower-case every character,
then strip leading and trailing whitespace.  (Implemented over the character
list by structural recursion; `String.toLower`/`String.trim` compute the same
strings but are not kernel-reducible.) -/
def pyLowerStrip (s : String) : String :=
  String.mk ((dropLeadingWs ((dropLeadingWs (s.data.map Char.toLower).reverse).reverse)))

/-- Python `s or ""` on a string: the empty string is falsy, so this is the
identity on strings (it matters only for `None` arguments, which the claims
exclude). -/
def pyOrEmpty (s : String) : String := if s = "" then "" else s

/-- `SimpleCache._generate_key` (lines 148-150):
`f"{interests.lower().strip()}_{skills.lower().strip()}_{goals.lower().strip()}"`. -/
def generate_key (interests skills goals : String) : String :=
  pyLowerStrip interests ++ "_" ++ pyLowerStrip skills ++ "_" ++ pyLowerStrip goals

/-- Python-dict lookup on an insertion-ordered association list with distinct
keys (first match wins). -/
def dictLookup {V : Type} (k : String) : List (String × V) → Option V
  | [] => none
  | (k1, v) :: rest => if k1 = k then some v else dictLookup k rest

/-- Python `k in d`. -/
def dictContains {V : Type} (k : String) (d : List (String × V)) : Bool :=
  (dictLookup k d).isSome

/-- Python `d[k] = v`: overwrite in place when present (Python dicts keep the
original insertion position), otherwise append at the end. -/
def dictInsert {V : Type} (k : String) (v : V) : List (String × V) → List (String × V)
  | [] => [(k, v)]
  | (k1, v1) :: rest =>
      if k1 = k then (k, v) :: rest else (k1, v1) :: dictInsert k v rest

/-- Python `del d[k]` minus the error case (callers check presence first). -/
def dictRemove {V : Type} (k : String) : List (String × V) → List (String × V)
  | [] => []
  | (k1, v1) :: rest => if k1 = k then rest else (k1, v1) :: dictRemove k rest

/-- Python `list.remove(x)`: delete the first occurrence, `none` when absent
(Python raises `ValueError` there). -/
def listRemoveFirst (k : String) : List String → Option (List String)
  | [] => none
  | x :: xs =>
      if x = k then some xs else (listRemoveFirst k xs).map (fun ys => x :: ys)

/-- State of `SimpleCache` (lines 140-146): capacity, the dict from fingerprint
to cached result (modelled as an insertion-ordered association list), and the
access-order list.  The cached value type is abstract (`V`); the source stores
lists of course dicts. -/
structure SimpleCache (V : Type) where
  max_size : Nat
  cache : List (String × V)
  access_order : List String
deriving DecidableEq

/-- `SimpleCache.__init__(max_size)` with an explicit capacity. -/
def mkCache (V : Type) (maxSize : Nat) : SimpleCache V :=
  { max_size := maxSize, cache := [], access_order := [] }

/-- `SimpleCache.get` (lines 152-160): compute the fingerprint; on a hit,
move it to the tail of `access_order` (`remove` then `append`) and return the
value; on a miss return `None`.  `list.remove` raises `ValueError` when the
fingerprint is missing from `access_order`. -/
def SimpleCache.get {V : Type} (c : SimpleCache V) (interests skills goals : String) :
    Except PyErr (Option V × SimpleCache V) :=
  let key := generate_key interests (pyOrEmpty skills) (pyOrEmpty goals)
  match dictLookup key c.cache with
  | some v =>
      match listRemoveFirst key c.access_order with
      | some rest =>
          Except.ok (some v, { c with access_order := rest ++ [key] })
      | none => Except.error (PyErr.valueError "list.remove(x): x not in list")
  | none => Except.ok (none, c)

/-- `SimpleCache.set` (lines 162-172): compute the fingerprint; when
`len(self.cache) >= self.max_size`, pop the head of `access_order`
(an `IndexError` on an empty list) and `del` it from the dict (a `KeyError`
when it is no longer a dict key); then store the value under the fingerprint
and append the fingerprint to `access_order`.  Note the source evicts whenever
the dict is full, whether or not the fingerprint is already present, and
always appends the fingerprint. -/
def SimpleCache.set {V : Type} (c : SimpleCache V) (interests skills goals : String)
    (courses : V) : Except PyErr (SimpleCache V) :=
  let key := generate_key interests (pyOrEmpty skills) (pyOrEmpty goals)
  if c.max_size ≤ c.cache.length then
    match c.access_order with
    | [] => Except.error PyErr.indexError
    | oldest :: rest =>
        if dictContains oldest c.cache then
          Except.ok { c with
            cache := dictInsert key courses (dictRemove oldest c.cache),
            access_order := rest ++ [key] }
        else Except.error PyErr.keyError
  else
    Except.ok { c with
      cache := dictInsert key courses c.cache,
      access_order := c.access_order ++ [key] }

/-- `SimpleCache.clear` (lines 174-177). -/
def SimpleCache.clear {V : Type} (c : SimpleCache V) : SimpleCache V :=
  { c with cache := [], access_order := [] }

/-- One abstract cache operation, for stating properties of operation
sequences. -/
inductive CacheOp (V : Type) where
  | get : String → String → String → CacheOp V
  | set : String → String → String → V → CacheOp V
  | clear : CacheOp V

/-- Run one cache operation, discarding any returned value. -/
def runOp {V : Type} (c : SimpleCache V) : CacheOp V → Except PyErr (SimpleCache V)
  | CacheOp.get i s g => (c.get i s g).map Prod.snd
  | CacheOp.set i s g v => c.set i s g v
  | CacheOp.clear => Except.ok c.clear

/-- Run a sequence of cache operations, stopping at the first raised
exception. -/
def runOps {V : Type} (c : SimpleCache V) : List (CacheOp V) → Except PyErr (SimpleCache V)
  | [] => Except.ok c
  | op :: ops =>
      match runOp c op with
      | Except.ok c1 => runOps c1 ops
      | Except.error e => Except.error e

/-- The spec's cache invariant (section 3, restated by claim C4):
`size(mapping) == size(access-order)`, `size(mapping) ≤ maximum capacity`, and
every mapping key appears exactly once in access-order. -/
def cacheInv {V : Type} (c : SimpleCache V) : Prop :=
  c.cache.length = c.access_order.length ∧
  c.cache.length ≤ c.max_size ∧
  ∀ k ∈ c.cache.map Prod.fst, c.access_order.count k = 1

instance {V : Type} (c : SimpleCache V) : Decidable (cacheInv c) := by
  unfold cacheInv; infer_instance

/-- The result value of a `get`, ignoring the state change. -/
def getValue {V : Type} (c : SimpleCache V) (interests skills goals : String) :
    Except PyErr (Option V) :=
  (c.get interests skills goals).map Prod.fst

/-!  Helper lemmas about the retry loop and the rotation.  -/

/-- The retry loop adds at most `fuel` to the error counter and leaves the
request counter and `max_retries` unchanged. -/
theorem attemptLoop_counters (transport : Nat → String → Except PyErr String) :
    ∀ (fuel attempt : Nat) (s : ClientState) (lastError : Option PyErr),
      (attemptLoop transport fuel attempt s lastError).state.errorCount ≤ s.errorCount + fuel ∧
      (attemptLoop transport fuel attempt s lastError).state.requestCount = s.requestCount ∧
      (attemptLoop transport fuel attempt s lastError).state.maxRetries = s.maxRetries := by
  intro fuel
  induction fuel with
  | zero =>
      intro attempt s lastError
      simp [attemptLoop]
  | succ f ih =>
      intro attempt s lastError
      simp only [attemptLoop]
      split
      case _ e heq =>
        have h := ih (attempt + 1) { s with errorCount := s.errorCount + 1 } (some e)
        simp only at h ⊢
        exact ⟨le_trans h.1 (by omega), h.2.1, h.2.2⟩
      case _ key s1 heq =>
        have hs1 : s1.errorCount = s.errorCount ∧ s1.requestCount = s.requestCount ∧
            s1.maxRetries = s.maxRetries := by
          unfold get_next_api_key at heq
          cases hg : s.apiKeys[s.currentKeyIndex]? <;> rw [hg] at heq <;> simp at heq
          rw [← heq.2]
          exact ⟨rfl, rfl, rfl⟩
        split
        case _ text heq2 =>
          simp only
          exact ⟨by omega, hs1.2.1, hs1.2.2⟩
        case _ e heq2 =>
          have h := ih (attempt + 1) { s1 with errorCount := s1.errorCount + 1 } (some e)
          simp only at h ⊢
          exact ⟨le_trans h.1 (by omega), h.2.1.trans hs1.2.1, h.2.2.trans hs1.2.2⟩

/-- When the transport fails on every attempt, a run of the retry loop with
`fuel ≥ 1` attempts records exactly `fuel` attempts, adds `fuel` to the error
counter, leaves the request counter unchanged, and raises the error of the
final attempt (the attempt numbered `attempt + fuel - 1`, using the key at
rotation offset `fuel - 1` from the current index). -/
theorem attemptLoop_allFail (transport : Nat → String → Except PyErr String)
    (hfail : ∀ a k, ∃ e, transport a k = Except.error e) :
    ∀ (fuel attempt : Nat) (s : ClientState) (lastError : Option PyErr),
      1 ≤ fuel → s.currentKeyIndex < s.apiKeys.length →
      (attemptLoop transport fuel attempt s lastError).trace.length = fuel ∧
      (attemptLoop transport fuel attempt s lastError).state.errorCount = s.errorCount + fuel ∧
      (attemptLoop transport fuel attempt s lastError).state.requestCount = s.requestCount ∧
      ∃ e, (attemptLoop transport fuel attempt s lastError).result = Except.error e ∧
        transport (attempt + (fuel - 1))
          (s.apiKeys.getD ((s.currentKeyIndex + (fuel - 1)) % s.apiKeys.length) "") =
          Except.error e := by
  intro fuel
  induction fuel with
  | zero => intro _ _ _ h; omega
  | succ f ih =>
      intro attempt s lastError _ hidx
      have hlen : 0 < s.apiKeys.length := lt_of_le_of_lt (Nat.zero_le _) hidx
      have hget : get_next_api_key s =
          Except.ok (s.apiKeys[s.currentKeyIndex],
            { s with currentKeyIndex := (s.currentKeyIndex + 1) % s.apiKeys.length }) := by
        unfold get_next_api_key
        rw [List.getElem?_eq_getElem hidx]
      obtain ⟨e, he⟩ := hfail attempt s.apiKeys[s.currentKeyIndex]
      simp only [attemptLoop, hget, he]
      cases f with
      | zero =>
          simp only [attemptLoop, List.length_cons, List.length_nil, Option.getD_some]
          refine ⟨trivial, trivial, trivial, e, rfl, ?_⟩
          rw [Nat.add_zero, Nat.add_zero, Nat.mod_eq_of_lt hidx,
            List.getD_eq_getElem?_getD, List.getElem?_eq_getElem hidx]
          exact he
      | succ f1 =>
          have ihh := ih (attempt + 1)
            { s with currentKeyIndex := (s.currentKeyIndex + 1) % s.apiKeys.length,
                     errorCount := s.errorCount + 1 } (some e)
            (by omega) (by simpa using Nat.mod_lt _ hlen)
          simp only at ihh ⊢
          obtain ⟨h1, h2, h3, e1, h4, h5⟩ := ihh
          refine ⟨by simp only [List.length_cons]; omega, by omega, h3, e1, h4, ?_⟩
          rw [Nat.mod_add_mod] at h5
          have harith1 : attempt + 1 + (f1 + 1 - 1) = attempt + (f1 + 1 + 1 - 1) := by omega
          have harith2 : s.currentKeyIndex + 1 + (f1 + 1 - 1) = s.currentKeyIndex + (f1 + 1 + 1 - 1) := by omega
          rw [harith1, harith2] at h5
          exact h5


/-- Rotation-index structure of the attempts of one retry-loop run: the first
recorded index is the current one, every recorded index is in range, and each
subsequent attempt uses the previous index plus one, modulo the pool size. -/
theorem attemptLoop_trace (transport : Nat → String → Except PyErr String) :
    ∀ (fuel attempt : Nat) (s : ClientState) (lastError : Option PyErr),
      s.currentKeyIndex < s.apiKeys.length →
      ((attemptLoop transport fuel attempt s lastError).trace ≠ [] →
        (attemptLoop transport fuel attempt s lastError).trace.getD 0 0 = s.currentKeyIndex) ∧
      (∀ j, j < (attemptLoop transport fuel attempt s lastError).trace.length →
        (attemptLoop transport fuel attempt s lastError).trace.getD j 0 < s.apiKeys.length) ∧
      (∀ j, j + 1 < (attemptLoop transport fuel attempt s lastError).trace.length →
        (attemptLoop transport fuel attempt s lastError).trace.getD (j + 1) 0 =
          ((attemptLoop transport fuel attempt s lastError).trace.getD j 0 + 1) %
            s.apiKeys.length) := by
  intro fuel
  induction fuel with
  | zero =>
      intro attempt s lastError _
      simp [attemptLoop]
  | succ f ih =>
      intro attempt s lastError hidx
      have hlen : 0 < s.apiKeys.length := lt_of_le_of_lt (Nat.zero_le _) hidx
      have hget : get_next_api_key s =
          Except.ok (s.apiKeys[s.currentKeyIndex],
            { s with currentKeyIndex := (s.currentKeyIndex + 1) % s.apiKeys.length }) := by
        unfold get_next_api_key
        rw [List.getElem?_eq_getElem hidx]
      simp only [attemptLoop, hget]
      split
      case _ text heq =>
        refine ⟨fun _ => rfl, ?_, ?_⟩
        · intro j hj
          simp only [List.length_cons, List.length_nil] at hj
          have hj0 : j = 0 := by omega
          subst hj0
          simpa using hidx
        · intro j hj
          simp only [List.length_cons, List.length_nil] at hj
          omega
      case _ e heq =>
        have ihh := ih (attempt + 1)
          { s with currentKeyIndex := (s.currentKeyIndex + 1) % s.apiKeys.length,
                   errorCount := s.errorCount + 1 } (some e)
          (by simpa using Nat.mod_lt _ hlen)
        simp only at ihh ⊢
        obtain ⟨hHead, hBound, hChain⟩ := ihh
        refine ⟨fun _ => rfl, ?_, ?_⟩
        · intro j hj
          cases j with
          | zero => simpa using hidx
          | succ j1 =>
              rw [List.getD_cons_succ]
              exact hBound j1 (by simp only [List.length_cons] at hj; omega)
        · intro j hj
          simp only [List.length_cons] at hj
          cases j with
          | zero =>
              rw [List.getD_cons_succ, List.getD_cons_zero]
              have hne : (attemptLoop transport f (attempt + 1)
                  { s with currentKeyIndex := (s.currentKeyIndex + 1) % s.apiKeys.length,
                           errorCount := s.errorCount + 1 } (some e)).trace ≠ [] := by
                have : 0 < (attemptLoop transport f (attempt + 1)
                    { s with currentKeyIndex := (s.currentKeyIndex + 1) % s.apiKeys.length,
                             errorCount := s.errorCount + 1 } (some e)).trace.length := by omega
                exact List.length_pos.mp this
              exact hHead hne
          | succ j1 =>
              rw [List.getD_cons_succ, List.getD_cons_succ]
              exact hChain j1 (by omega)


/-- Closed form of repeated `_get_next_api_key` calls: the `t`-th call returns
the key at index `(start + t) mod pool size`. -/
theorem rotationTrace_closed :
    ∀ (n : Nat) (s : ClientState), s.currentKeyIndex < s.apiKeys.length →
      rotationTrace s n = (List.range n).map
        (fun t => s.apiKeys.getD ((s.currentKeyIndex + t) % s.apiKeys.length) "") := by
  intro n
  induction n with
  | zero => intro s _; simp [rotationTrace]
  | succ m ih =>
      intro s hidx
      have hlen : 0 < s.apiKeys.length := lt_of_le_of_lt (Nat.zero_le _) hidx
      have hget : get_next_api_key s =
          Except.ok (s.apiKeys[s.currentKeyIndex],
            { s with currentKeyIndex := (s.currentKeyIndex + 1) % s.apiKeys.length }) := by
        unfold get_next_api_key
        rw [List.getElem?_eq_getElem hidx]
      simp only [rotationTrace, hget]
      rw [ih { s with currentKeyIndex := (s.currentKeyIndex + 1) % s.apiKeys.length }
        (by simpa using Nat.mod_lt _ hlen)]
      rw [List.range_succ_eq_map]
      simp only [List.map_cons, List.map_map]
      congr 1
      · rw [Nat.add_zero, Nat.mod_eq_of_lt hidx, List.getD_eq_getElem?_getD,
          List.getElem?_eq_getElem hidx]
        rfl
      · apply List.map_congr_left
        intro t _
        simp only [Function.comp_apply]
        rw [Nat.mod_add_mod]
        have ha : s.currentKeyIndex + 1 + t = s.currentKeyIndex + t.succ := by omega
        rw [ha]


/-- Reading every position of a list via `getD` in order reproduces the
list. -/
theorem map_getD_range :
    ∀ (l : List String), (List.range l.length).map (fun t => l.getD t "") = l := by
  intro l
  induction l with
  | nil => simp
  | cons x xs ih =>
      rw [List.length_cons, List.range_succ_eq_map]
      simp only [List.map_cons, List.getD_cons_zero, List.map_map]
      have hstep : List.map ((fun t => (x :: xs).getD t "") ∘ Nat.succ)
          (List.range xs.length) =
          List.map (fun t => xs.getD t "") (List.range xs.length) := by
        apply List.map_congr_left
        intro t _
        simp [List.getD_cons_succ]
      rw [hstep, ih]

/-- Each `generate_content` call preserves the bound
`errorCount ≤ maxRetries * requestCount`. -/
theorem runCalls_bound :
    ∀ (ts : List (Nat → String → Except PyErr String)) (s : ClientState),
      s.errorCount ≤ s.maxRetries * s.requestCount →
      (runCalls ts s).errorCount ≤ (runCalls ts s).maxRetries * (runCalls ts s).requestCount := by
  intro ts
  induction ts with
  | nil => intro s h; exact h
  | cons t ts ih =>
      intro s h
      simp only [runCalls]
      apply ih
      have hc := attemptLoop_counters t s.maxRetries 0 { s with requestCount := s.requestCount + 1 } none
      obtain ⟨he, hr, hm⟩ := hc
      simp only at he hr hm
      unfold generate_content
      rw [hr, hm, Nat.mul_succ]
      omega

/-- Claim C2, counterexample: with `max_retries = 2` and an always-failing
transport, a single `execute()` call leaves the error counter at 2 and the
request counter at 1, so the claimed invariant `error ≤ request` is false. -/
theorem c2_counter_invariant_counterexample :
    (runCalls [fun _ _ => Except.error (PyErr.transportErr 0)] (mkClient ["k"] 2)).errorCount = 2 ∧
    (runCalls [fun _ _ => Except.error (PyErr.transportErr 0)] (mkClient ["k"] 2)).requestCount = 1 ∧
    ¬((runCalls [fun _ _ => Except.error (PyErr.transportErr 0)] (mkClient ["k"] 2)).errorCount ≤
      (runCalls [fun _ _ => Except.error (PyErr.transportErr 0)] (mkClient ["k"] 2)).requestCount) := by
  decide

/-- Claim C2 (amended): after every sequence of `execute()` calls on a freshly
constructed executor, the cumulative error counter is at most
`max_retries` times the cumulative request counter (each call adds one request
and at most `max_retries` errors). -/
theorem c2_counter_invariant_amended
    (ts : List (Nat → String → Except PyErr String)) (keys : List String) (R : Nat) :
    (runCalls ts (mkClient keys R)).errorCount ≤
      (runCalls ts (mkClient keys R)).maxRetries * (runCalls ts (mkClient keys R)).requestCount :=
  runCalls_bound ts (mkClient keys R) (by simp [mkClient])

/-- Claim C3 (code bug): at capacity 2 holding fingerprints A and B, a put of
the already-present fingerprint B still evicts A (the access-order head), so
a subsequent `get(A)` misses; the claim (and spec) say nothing is evicted when
the fingerprint is already present.  Note also B afterwards occupies two
access-order slots. -/
theorem c3_eviction_on_overwrite_bug :
    runOps (mkCache Nat 2)
      [CacheOp.set "a" "" "" 1, CacheOp.set "b" "" "" 2, CacheOp.set "b" "" "" 3] =
      Except.ok { max_size := 2, cache := [("b__", 3)], access_order := ["b__", "b__"] } ∧
    getValue { max_size := 2, cache := [("b__", (3 : Nat))], access_order := ["b__", "b__"] }
      "a" "" "" = Except.ok none := by
  decide

/-- Claim C4 (code bug): a put whose fingerprint is already present appends the
fingerprint to access order without removing the old occurrence, so after
`put A; put A` (capacity 2) the mapping has 1 entry but access order has
length 2 with the fingerprint appearing twice — the claimed invariant is
violated. -/
theorem c4_invariant_violation_bug :
    runOps (mkCache Nat 2) [CacheOp.set "a" "" "" 1, CacheOp.set "a" "" "" 2] =
      Except.ok { max_size := 2, cache := [("a__", 2)], access_order := ["a__", "a__"] } ∧
    ¬ cacheInv { max_size := 2, cache := [("a__", (2 : Nat))], access_order := ["a__", "a__"] } := by
  decide

/-- Claim C5 (code bug): a pure sequence of six string-keyed puts at capacity 2
makes `set` raise `KeyError`: duplicate access-order entries created by
overwriting puts leave a stale fingerprint at the access-order head, and
`del self.cache[oldest_key]` then fails. -/
theorem c5_keyerror_bug :
    runOps (mkCache Nat 2)
      [CacheOp.set "a" "" "" 1, CacheOp.set "b" "" "" 2, CacheOp.set "b" "" "" 3,
       CacheOp.set "c" "" "" 4, CacheOp.set "d" "" "" 5, CacheOp.set "e" "" "" 6] =
      Except.error PyErr.keyError := by
  decide

/-- Claim C10: the fingerprint is not injective — the triples
`("a_b", "c", "")` and `("a", "b_c", "")` differ in their normalized fields
but produce the same fingerprint `"a_b_c_"`, so a put under the first is
returned by a get under the second. -/
theorem c10_fingerprint_collision :
    generate_key "a_b" "c" "" = generate_key "a" "b_c" "" ∧
    pyLowerStrip "a_b" ≠ pyLowerStrip "a" ∧
    pyLowerStrip "c" ≠ pyLowerStrip "b_c" ∧
    SimpleCache.set (mkCache Nat 10) "a_b" "c" "" 42 =
      Except.ok { max_size := 10, cache := [("a_b_c_", 42)], access_order := ["a_b_c_"] } ∧
    getValue { max_size := 10, cache := [("a_b_c_", (42 : Nat))], access_order := ["a_b_c_"] }
      "a" "b_c" "" = Except.ok (some 42) := by
  decide

/-- Claim C1, counterexample: with one key, `max_retries = 1` and an
always-failing transport, `generate_content` raises the transport's own
exception, not a distinct `ExhaustedRetriesError` wrapping it — no wrapper
type exists in the source (`raise last_error`, line 126). -/
theorem c1_retry_exhaustion_counterexample :
    (generate_content (fun a _ => Except.error (PyErr.transportErr a))
      (mkClient ["k"] 1)).result = Except.error (PyErr.transportErr 0) ∧
    ∀ cause, (generate_content (fun a _ => Except.error (PyErr.transportErr a))
      (mkClient ["k"] 1)).result ≠ Except.error (PyErr.exhaustedRetries cause) := by
  have hres : (generate_content (fun a _ => Except.error (PyErr.transportErr a))
      (mkClient ["k"] 1)).result = Except.error (PyErr.transportErr 0) := by decide
  refine ⟨hres, ?_⟩
  intro cause h
  rw [hres] at h
  simp at h

/-- Claim C1 (amended): with a non-empty pool, `max_retries = R ≥ 1` and a
transport failing on every attempt, `execute()` makes exactly R attempts,
adds R to the error counter, adds 1 to the request counter, and raises the
failure of the final attempt itself (not wrapped in a distinct error kind). -/
theorem c1_retry_exhaustion_amended (transport : Nat → String → Except PyErr String)
    (s : ClientState) (hidx : s.currentKeyIndex < s.apiKeys.length)
    (hR : 1 ≤ s.maxRetries)
    (hfail : ∀ a k, ∃ e, transport a k = Except.error e) :
    (generate_content transport s).trace.length = s.maxRetries ∧
    (generate_content transport s).state.errorCount = s.errorCount + s.maxRetries ∧
    (generate_content transport s).state.requestCount = s.requestCount + 1 ∧
    ∃ e, (generate_content transport s).result = Except.error e ∧
      transport (s.maxRetries - 1)
        (s.apiKeys.getD ((s.currentKeyIndex + (s.maxRetries - 1)) % s.apiKeys.length) "") =
        Except.error e := by
  have h := attemptLoop_allFail transport hfail s.maxRetries 0
    { s with requestCount := s.requestCount + 1 } none hR (by simpa using hidx)
  unfold generate_content
  simp only at h
  obtain ⟨h1, h2, h3, e, h4, h5⟩ := h
  exact ⟨h1, h2, h3, e, h4, by simpa using h5⟩

/-- Witness for `c1_retry_exhaustion_amended` at a concrete input: two keys,
`max_retries = 3`, transport failing with `transportErr a` on attempt `a`. -/
theorem c1_retry_exhaustion_amended_witness :
    ((mkClient ["k1", "k2"] 3).currentKeyIndex < (mkClient ["k1", "k2"] 3).apiKeys.length ∧
     1 ≤ (mkClient ["k1", "k2"] 3).maxRetries ∧
     (∀ a k, ∃ e, (fun a _ => Except.error (PyErr.transportErr a) :
        Nat → String → Except PyErr String) a k = Except.error e)) ∧
    ((generate_content (fun a _ => Except.error (PyErr.transportErr a))
        (mkClient ["k1", "k2"] 3)).trace.length = (mkClient ["k1", "k2"] 3).maxRetries ∧
     (generate_content (fun a _ => Except.error (PyErr.transportErr a))
        (mkClient ["k1", "k2"] 3)).state.errorCount =
          (mkClient ["k1", "k2"] 3).errorCount + (mkClient ["k1", "k2"] 3).maxRetries ∧
     (generate_content (fun a _ => Except.error (PyErr.transportErr a))
        (mkClient ["k1", "k2"] 3)).state.requestCount =
          (mkClient ["k1", "k2"] 3).requestCount + 1 ∧
     ∃ e, (generate_content (fun a _ => Except.error (PyErr.transportErr a))
        (mkClient ["k1", "k2"] 3)).result = Except.error e ∧
       (fun a _ => Except.error (PyErr.transportErr a) :
          Nat → String → Except PyErr String) ((mkClient ["k1", "k2"] 3).maxRetries - 1)
         ((mkClient ["k1", "k2"] 3).apiKeys.getD
           (((mkClient ["k1", "k2"] 3).currentKeyIndex +
             ((mkClient ["k1", "k2"] 3).maxRetries - 1)) %
               (mkClient ["k1", "k2"] 3).apiKeys.length) "") = Except.error e) :=
  ⟨⟨by decide, by decide, fun a k => ⟨PyErr.transportErr a, rfl⟩⟩,
    c1_retry_exhaustion_amended (fun a _ => Except.error (PyErr.transportErr a))
      (mkClient ["k1", "k2"] 3) (by decide) (by decide)
      (fun a k => ⟨PyErr.transportErr a, rfl⟩)⟩

/-- Claim C6, counterexample: for a single-credential pool (`N = 1`), the
attempt after a failure advances the rotation index to `(0 + 1) % 1 = 0` and
therefore reuses exactly the credential that just failed, contradicting
"never the same credential that just failed". -/
theorem c6_rotation_retry_counterexample :
    (generate_content (fun a _ => Except.error (PyErr.transportErr a))
      (mkClient ["k"] 2)).trace = [0, 0] ∧
    (generate_content (fun a _ => Except.error (PyErr.transportErr a))
      (mkClient ["k"] 2)).trace.getD 1 0 =
    (generate_content (fun a _ => Except.error (PyErr.transportErr a))
      (mkClient ["k"] 2)).trace.getD 0 0 := by
  decide

/-- Claim C6 (amended): within one `execute()` call, each attempt after the
first uses the credential at the next rotation index (previous index plus one,
modulo the pool size N); when N ≥ 2 that is a different pool position from the
one that just failed, but when N = 1 the same sole credential is reused. -/
theorem c6_rotation_retry_amended (transport : Nat → String → Except PyErr String)
    (s : ClientState) (hidx : s.currentKeyIndex < s.apiKeys.length) :
    ∀ j, j + 1 < (generate_content transport s).trace.length →
      (generate_content transport s).trace.getD (j + 1) 0 =
        ((generate_content transport s).trace.getD j 0 + 1) % s.apiKeys.length ∧
      (2 ≤ s.apiKeys.length →
        (generate_content transport s).trace.getD (j + 1) 0 ≠
          (generate_content transport s).trace.getD j 0) := by
  intro j hj
  unfold generate_content at hj ⊢
  have h := attemptLoop_trace transport s.maxRetries 0
    { s with requestCount := s.requestCount + 1 } none (by simpa using hidx)
  simp only at h
  obtain ⟨hHead, hBound, hChain⟩ := h
  have hc := hChain j hj
  refine ⟨hc, ?_⟩
  intro hN heq
  have hb : (attemptLoop transport s.maxRetries 0
      { s with requestCount := s.requestCount + 1 } none).trace.getD j 0 <
      s.apiKeys.length := hBound j (by omega)
  rw [hc] at heq
  rcases Nat.lt_or_ge ((attemptLoop transport s.maxRetries 0
      { s with requestCount := s.requestCount + 1 } none).trace.getD j 0 + 1)
      s.apiKeys.length with hlt | hge
  · rw [Nat.mod_eq_of_lt hlt] at heq
    omega
  · have hx1 : (attemptLoop transport s.maxRetries 0
        { s with requestCount := s.requestCount + 1 } none).trace.getD j 0 + 1 =
        s.apiKeys.length := by omega
    rw [hx1, Nat.mod_self] at heq
    omega

/-- Witness for `c6_rotation_retry_amended` at a concrete input: two keys and
an always-failing transport. -/
theorem c6_rotation_retry_amended_witness :
    (mkClient ["k1", "k2"] 3).currentKeyIndex < (mkClient ["k1", "k2"] 3).apiKeys.length ∧
    (∀ j, j + 1 < (generate_content (fun a _ => Except.error (PyErr.transportErr a))
        (mkClient ["k1", "k2"] 3)).trace.length →
      (generate_content (fun a _ => Except.error (PyErr.transportErr a))
        (mkClient ["k1", "k2"] 3)).trace.getD (j + 1) 0 =
        ((generate_content (fun a _ => Except.error (PyErr.transportErr a))
          (mkClient ["k1", "k2"] 3)).trace.getD j 0 + 1) %
          (mkClient ["k1", "k2"] 3).apiKeys.length ∧
      (2 ≤ (mkClient ["k1", "k2"] 3).apiKeys.length →
        (generate_content (fun a _ => Except.error (PyErr.transportErr a))
          (mkClient ["k1", "k2"] 3)).trace.getD (j + 1) 0 ≠
        (generate_content (fun a _ => Except.error (PyErr.transportErr a))
          (mkClient ["k1", "k2"] 3)).trace.getD j 0)) :=
  ⟨by decide, c6_rotation_retry_amended (fun a _ => Except.error (PyErr.transportErr a))
    (mkClient ["k1", "k2"] 3) (by decide)⟩

/-- Claim C7: for a freshly constructed client over a non-empty pool of N
keys, N consecutive `_get_next_api_key` calls return the keys in construction
order (each exactly once), and the (N+1)-th call returns the first key
again. -/
theorem c7_rotation (keys : List String) (R : Nat) (h : 1 ≤ keys.length) :
    rotationTrace (mkClient keys R) keys.length = keys ∧
    rotationTrace (mkClient keys R) (keys.length + 1) = keys ++ [keys.getD 0 ""] := by
  have h0 : (mkClient keys R).currentKeyIndex < (mkClient keys R).apiKeys.length := by
    simpa [mkClient] using h
  have hmap : (List.range keys.length).map
      (fun t => keys.getD ((0 + t) % keys.length) "") = keys := by
    have hcg : ∀ t ∈ List.range keys.length,
        keys.getD ((0 + t) % keys.length) "" = keys.getD t "" := by
      intro t ht
      rw [List.mem_range] at ht
      rw [Nat.zero_add, Nat.mod_eq_of_lt ht]
    rw [List.map_congr_left hcg, map_getD_range]
  constructor
  · rw [rotationTrace_closed keys.length (mkClient keys R) h0]
    simpa [mkClient] using hmap
  · rw [rotationTrace_closed (keys.length + 1) (mkClient keys R) h0]
    simp only [mkClient]
    rw [List.range_succ, List.map_append]
    rw [hmap]
    simp [Nat.mod_self]

/-- Witness for `c7_rotation` at a concrete two-key pool. -/
theorem c7_rotation_witness :
    1 ≤ (["k1", "k2"] : List String).length ∧
    (rotationTrace (mkClient ["k1", "k2"] 3) (["k1", "k2"] : List String).length =
        ["k1", "k2"] ∧
     rotationTrace (mkClient ["k1", "k2"] 3) ((["k1", "k2"] : List String).length + 1) =
        ["k1", "k2"] ++ [(["k1", "k2"] : List String).getD 0 ""]) :=
  ⟨by decide, c7_rotation ["k1", "k2"] 3 (by decide)⟩

/-- Claim C8: for a capacity-2 cache holding A then B (A inserted first, so A
heads the access order), a `get(A)` hit moves A to most-recently-used, and a
subsequent put of C evicts B, not A: afterwards `get(B)` misses while `get(A)`
and `get(C)` return their stored values. -/
theorem c8_lru_touch_on_read (V : Type) (kA kB kC : String) (vA vB vC : V)
    (hab : generate_key kA "" "" ≠ generate_key kB "" "")
    (hac : generate_key kA "" "" ≠ generate_key kC "" "")
    (hbc : generate_key kB "" "" ≠ generate_key kC "" "") :
    ∃ c4 : SimpleCache V,
      runOps (mkCache V 2)
        [CacheOp.set kA "" "" vA, CacheOp.set kB "" "" vB,
         CacheOp.get kA "" "", CacheOp.set kC "" "" vC] = Except.ok c4 ∧
      getValue c4 kB "" "" = Except.ok none ∧
      getValue c4 kA "" "" = Except.ok (some vA) ∧
      getValue c4 kC "" "" = Except.ok (some vC) := by
  refine ⟨{ max_size := 2,
            cache := [(generate_key kA "" "", vA), (generate_key kC "" "", vC)],
            access_order := [generate_key kA "" "", generate_key kC "" ""] }, ?_, ?_, ?_, ?_⟩ <;>
    simp [runOps, runOp, SimpleCache.set, SimpleCache.get, getValue, mkCache, Except.map,
      dictLookup, dictInsert, dictRemove, dictContains, listRemoveFirst, pyOrEmpty,
      hab, hac, hbc, Ne.symm hab, Ne.symm hac, Ne.symm hbc]

/-- Witness for `c8_lru_touch_on_read` at concrete keys and values. -/
theorem c8_lru_touch_on_read_witness :
    (generate_key "a" "" "" ≠ generate_key "b" "" "" ∧
     generate_key "a" "" "" ≠ generate_key "c" "" "" ∧
     generate_key "b" "" "" ≠ generate_key "c" "" "") ∧
    (∃ c4 : SimpleCache Nat,
      runOps (mkCache Nat 2)
        [CacheOp.set "a" "" "" 1, CacheOp.set "b" "" "" 2,
         CacheOp.get "a" "" "", CacheOp.set "c" "" "" 3] = Except.ok c4 ∧
      getValue c4 "b" "" "" = Except.ok none ∧
      getValue c4 "a" "" "" = Except.ok (some 1) ∧
      getValue c4 "c" "" "" = Except.ok (some 3)) :=
  ⟨⟨by decide, by decide, by decide⟩,
    c8_lru_touch_on_read Nat "a" "b" "c" 1 2 3 (by decide) (by decide) (by decide)⟩

/-- Claim C9: the construction path raises the construction-time `ValueError`
(the source's realization of the spec's `ConfigurationError`) exactly when the
environment supplies zero credentials, with no retry — the error is the
immediate result; with at least one credential, construction succeeds with a
non-empty pool and zeroed counters. -/
theorem c9_construction (key1 key2 : Option String) (R : Nat) :
    (pyTruthy key1 = false → pyTruthy key2 = false →
      constructClient key1 key2 R = Except.error (PyErr.valueError noKeysMsg)) ∧
    (pyTruthy key1 = true ∨ pyTruthy key2 = true →
      ∃ s, constructClient key1 key2 R = Except.ok s ∧ 1 ≤ s.apiKeys.length ∧
        s.requestCount = 0 ∧ s.errorCount = 0 ∧ s.maxRetries = R) := by
  constructor
  · intro h1 h2
    simp [constructClient, load_api_keys, h1, h2]
  · intro h
    cases hk1 : pyTruthy key1 <;> cases hk2 : pyTruthy key2 <;>
      simp [hk1, hk2] at h ⊢ <;>
      simp [constructClient, load_api_keys, mkClient, hk1, hk2]

/-- Witness for `c9_construction`: no keys in the environment yields the
`ValueError`; a single key yields a working client. -/
theorem c9_construction_witness :
    constructClient none none 3 = Except.error (PyErr.valueError noKeysMsg) ∧
    (∃ s, constructClient (some "k") none 3 = Except.ok s ∧ 1 ≤ s.apiKeys.length ∧
      s.requestCount = 0 ∧ s.errorCount = 0 ∧ s.maxRetries = 3) :=
  ⟨(c9_construction none none 3).1 rfl rfl,
   (c9_construction (some "k") none 3).2 (Or.inl (by decide))⟩
